import Mathlib

/-!
Verification development for the ez-ffmpeg stream-graph scheduler core.

The Rust sources are shallowly embedded:
* `FramePipeline` (src/core/filter/frame_pipeline.rs) — the runtime-mutable
  doubly-linked filter chain — is embedded as an arena of `FrameFilterContext`
  slots addressed by stable indices; an `Rc` / `Weak` link becomes an
  `Option Nat` arena index.  `Weak::upgrade` is modelled as an arena lookup:
  in every state exercised here no weak back-reference dangles (a node is
  dropped only by `remove`, which also clears the single weak reference that
  pointed at it), so the lookup faithfully reproduces `upgrade`.
* The scheduler's fan-out / sender bookkeeping (run_filter_frame in
  src/core/scheduler/frame_filter_pipeline.rs) is embedded as pure functions
  on a list of sender endpoints; `Vec::remove` keeps its panic-on-out-of-range
  semantics via `Option`.
* Binding resolution (match_decoder_stream / match_encoder_stream) and the
  pipeline-init entry points are embedded over model stream registries.
-/

namespace EzFfmpeg

/-- `AVMediaType` restricted to the tags the core distinguishes. -/
inductive AVMediaType
  | video
  | audio
  | subtitle
  | other
deriving DecidableEq, Repr

/-- A `Box<dyn FrameFilter>` trait object.  A user-supplied filter is
identified by an id and carries the media type reported by `media_type()`;
`noop` is the `NoopFilter` placeholder installed by
`FrameFilterContext::take_filter`. -/
inductive FrameFilter
  | noop
  | user (uid : Nat) (mt : AVMediaType)
deriving DecidableEq, Repr

/-- One chain node (`FrameFilterContext`, src/core/filter/frame_filter_context.rs):
name, filter slot, weak `prev` back-reference and strong `next` link, both as
arena indices. -/
structure FrameFilterContext where
  name : String
  frame_filter : FrameFilter
  prev : Option Nat
  next : Option Nat
deriving DecidableEq, Repr

/-- Replace the element at index `i` (no-op when out of range), the embedding
of a `borrow_mut()` field write through an `Rc`/`Weak` handle. -/
def modifyAt {α : Type} (l : List α) (i : Nat) (f : α → α) : List α :=
  match l.get? i with
  | none => l
  | some c => l.set i (f c)

/-- The per-stream filter chain (`FramePipeline`,
src/core/filter/frame_pipeline.rs).  `nodes` is the arena; `head`/`tail`
are the chain's strong end pointers. -/
structure FramePipeline where
  stream_index : Nat
  linklabel : Option String
  media_type : AVMediaType
  nodes : List FrameFilterContext
  head : Option Nat
  tail : Option Nat
deriving DecidableEq, Repr

namespace FramePipeline

/-- `FramePipeline::new`. -/
def new (stream_index : Nat) (linklabel : Option String) (media_type : AVMediaType) :
    FramePipeline :=
  { stream_index := stream_index, linklabel := linklabel, media_type := media_type,
    nodes := [], head := none, tail := none }

/-- `FramePipeline::add_first`.  `none` models the `assert_eq!` panic on a
media-type mismatch; the inserted stage is the user filter `(uid, fmt)`. -/
def add_first (p : FramePipeline) (name : String) (uid : Nat) (fmt : AVMediaType) :
    Option FramePipeline :=
  if fmt = p.media_type then
    let n := p.nodes.length
    some <|
      match p.head with
      | some h =>
        -- head.prev := new node; new node.next := old head
        { p with
          nodes := modifyAt (p.nodes ++ [⟨name, .user uid fmt, none, some h⟩]) h
            (fun c => { c with prev := some n }),
          head := some n,
          tail := if p.tail = none then some n else p.tail }
      | none =>
        { p with
          nodes := p.nodes ++ [⟨name, .user uid fmt, none, none⟩],
          head := some n,
          tail := if p.tail = none then some n else p.tail }
  else none

/-- `FramePipeline::add_last`. -/
def add_last (p : FramePipeline) (name : String) (uid : Nat) (fmt : AVMediaType) :
    Option FramePipeline :=
  if fmt = p.media_type then
    let n := p.nodes.length
    some <|
      match p.tail with
      | some t =>
        -- tail.next := new node; new node.prev := old tail
        { p with
          nodes := modifyAt (p.nodes ++ [⟨name, .user uid fmt, some t, none⟩]) t
            (fun c => { c with next := some n }),
          tail := some n,
          head := if p.head = none then some n else p.head }
      | none =>
        { p with
          nodes := p.nodes ++ [⟨name, .user uid fmt, none, none⟩],
          tail := some n,
          head := if p.head = none then some n else p.head }
  else none

/-- The `while let Some(node) = current` name-search walk shared by
`add_before` / `add_after` / `remove` / `find` / `replace`, with fuel
(the arena size bounds the length of any acyclic chain). -/
def findIdxFrom (nodes : List FrameFilterContext) :
    Nat → Option Nat → String → Option Nat
  | 0, _, _ => none
  | _ + 1, none, _ => none
  | fuel + 1, some i, name =>
    match nodes.get? i with
    | none => none
    | some ctx =>
      if ctx.name = name then some i else findIdxFrom nodes fuel ctx.next name

/-- Search the chain from `head` for the first node named `name`. -/
def findIdx (p : FramePipeline) (name : String) : Option Nat :=
  findIdxFrom p.nodes p.nodes.length p.head name

/-- `FramePipeline::add_before`.  Outer `none` is the assertion panic; the
`Bool` is the source's return value (anchor found or not). -/
def add_before (p : FramePipeline) (base_name name : String) (uid : Nat)
    (fmt : AVMediaType) : Option (Bool × FramePipeline) :=
  if fmt = p.media_type then
    match findIdx p base_name with
    | none => some (false, p)
    | some i =>
      match p.nodes.get? i with
      | none => some (false, p)
      | some ctx =>
        let n := p.nodes.length
        match ctx.prev with
        | some pidx =>
          -- prev.next := new; new.prev := prev; anchor.prev := new
          some (true, { p with
            nodes := modifyAt
              (modifyAt (p.nodes ++ [⟨name, .user uid fmt, some pidx, some i⟩]) pidx
                (fun c => { c with next := some n }))
              i (fun c => { c with prev := some n }) })
        | none =>
          -- anchor had no predecessor: new node becomes head
          some (true, { p with
            nodes := modifyAt (p.nodes ++ [⟨name, .user uid fmt, none, some i⟩]) i
              (fun c => { c with prev := some n }),
            head := some n })
  else none

/-- `FramePipeline::add_after`. -/
def add_after (p : FramePipeline) (base_name name : String) (uid : Nat)
    (fmt : AVMediaType) : Option (Bool × FramePipeline) :=
  if fmt = p.media_type then
    match findIdx p base_name with
    | none => some (false, p)
    | some i =>
      match p.nodes.get? i with
      | none => some (false, p)
      | some ctx =>
        let n := p.nodes.length
        match ctx.next with
        | some nidx =>
          -- next.prev := new; new.next := next; anchor.next := new
          some (true, { p with
            nodes := modifyAt
              (modifyAt (p.nodes ++ [⟨name, .user uid fmt, some i, some nidx⟩]) nidx
                (fun c => { c with prev := some n }))
              i (fun c => { c with next := some n }) })
        | none =>
          -- anchor had no successor: new node becomes tail
          some (true, { p with
            nodes := modifyAt (p.nodes ++ [⟨name, .user uid fmt, some i, none⟩]) i
              (fun c => { c with next := some n }),
            tail := some n })
  else none

/-- `FramePipeline::remove`.  Mirrors the source exactly, including the
premature `node_mut.prev.take()`: by the time the successor's `prev` (or,
for a tail node, `self.tail`) is recomputed from `node_mut.prev`, that field
has already been cleared, so both are written as `none`. -/
def remove (p : FramePipeline) (name : String) :
    Option FrameFilter × FramePipeline :=
  match findIdx p name with
  | none => (none, p)
  | some i =>
    match p.nodes.get? i with
    | none => (none, p)
    | some ctx =>
      let filter := ctx.frame_filter
      let spliced :=
        match ctx.prev with
        | some pidx => (modifyAt p.nodes pidx (fun c => { c with next := ctx.next }), p.head)
        | none => (p.nodes, ctx.next)
      let spliced2 :=
        match ctx.next with
        | some nidx =>
          -- next.prev := node.prev, but node.prev was taken above: always none
          (modifyAt spliced.1 nidx (fun c => { c with prev := none }), p.tail)
        | none =>
          -- tail := node.prev.upgrade(), but node.prev was taken above: none
          (spliced.1, none)
      (some filter,
        { p with
          nodes := modifyAt spliced2.1 i
            (fun c => { c with frame_filter := .noop, prev := none, next := none }),
          head := spliced.2,
          tail := spliced2.2 })

/-- `FramePipeline::replace`: swap in the new filter and rename the node. -/
def replace (p : FramePipeline) (old_name new_name : String) (uid : Nat)
    (fmt : AVMediaType) : Option (Option FrameFilter × FramePipeline) :=
  if fmt = p.media_type then
    match findIdx p old_name with
    | none => some (none, p)
    | some i =>
      match p.nodes.get? i with
      | none => some (none, p)
      | some ctx =>
        some (some ctx.frame_filter,
          { p with
            nodes := modifyAt p.nodes i
              (fun c => { c with frame_filter := .user uid fmt, name := new_name }) })
  else none

end FramePipeline

/-- Walk the arena from a start pointer following `step` links, collecting
node names; fuel bounds the walk by the arena size. -/
def traverseNames (step : FrameFilterContext → Option Nat)
    (nodes : List FrameFilterContext) : Nat → Option Nat → List String
  | 0, _ => []
  | _ + 1, none => []
  | fuel + 1, some i =>
    match nodes.get? i with
    | none => []
    | some ctx => ctx.name :: traverseNames step nodes fuel (step ctx)

/-- Head-to-tail name sequence of the chain (follow `next`). -/
def forwardNames (p : FramePipeline) : List String :=
  traverseNames (fun c => c.next) p.nodes p.nodes.length p.head

/-- Tail-to-head name sequence of the chain (follow `prev`, i.e. the weak
back-references, upgraded via arena lookup). -/
def backwardNames (p : FramePipeline) : List String :=
  traverseNames (fun c => c.prev) p.nodes p.nodes.length p.tail

/-- Arena indices of the chain, head to tail. -/
def chainIdx (p : FramePipeline) : List Nat :=
  let rec go (nodes : List FrameFilterContext) : Nat → Option Nat → List Nat
    | 0, _ => []
    | _ + 1, none => []
    | fuel + 1, some i =>
      match nodes.get? i with
      | none => []
      | some ctx => i :: go nodes fuel ctx.next
  go p.nodes p.nodes.length p.head

/-- One structural chain operation, as issued by client code. -/
inductive ChainOp
  | add_first (name : String) (uid : Nat) (fmt : AVMediaType)
  | add_last (name : String) (uid : Nat) (fmt : AVMediaType)
  | add_before (base_name name : String) (uid : Nat) (fmt : AVMediaType)
  | add_after (base_name name : String) (uid : Nat) (fmt : AVMediaType)
  | remove (name : String)
  | replace (old_name new_name : String) (uid : Nat) (fmt : AVMediaType)
deriving DecidableEq, Repr

/-- The media kind of the stage an operation introduces, if any. -/
def ChainOp.stageMediaType : ChainOp → Option AVMediaType
  | .add_first _ _ fmt => some fmt
  | .add_last _ _ fmt => some fmt
  | .add_before _ _ _ fmt => some fmt
  | .add_after _ _ _ fmt => some fmt
  | .remove _ => none
  | .replace _ _ _ fmt => some fmt

/-- Apply one operation; `none` is an assertion panic. -/
def applyOp (p : FramePipeline) : ChainOp → Option FramePipeline
  | .add_first name uid fmt => p.add_first name uid fmt
  | .add_last name uid fmt => p.add_last name uid fmt
  | .add_before base name uid fmt => (p.add_before base name uid fmt).map (·.2)
  | .add_after base name uid fmt => (p.add_after base name uid fmt).map (·.2)
  | .remove name => some (p.remove name).2
  | .replace old_name new_name uid fmt => (p.replace old_name new_name uid fmt).map (·.2)

/-- Run a sequence of chain operations. -/
def execOps (p : FramePipeline) : List ChainOp → Option FramePipeline
  | [] => some p
  | op :: rest => (applyOp p op).bind (fun q => execOps q rest)

/-! ## Fan-out and sender bookkeeping (run_filter_frame) -/

/-- A `Sender<FrameBox>` endpoint of a bounded channel: its identity and
whether the receiving side is still connected (a `send` on a disconnected
channel returns `Err`). -/
structure FrameSenderEnd where
  uid : Nat
  connected : Bool
deriving DecidableEq, Repr

/-- A decoded `Frame`: payload content plus whether `buf[0]` is non-null
(frames carrying only props, e.g. an EOF timestamp, have no buffer). -/
structure AVFrame where
  payload : Nat
  hasBuf : Bool
deriving DecidableEq, Repr

/-- One send attempt observed during fan-out.  `dup` covers the
`i < len - 1` arm: a fresh pool frame receives a reference-incrementing
`av_frame_ref` of the payload buffer when it exists (`shared = true`), or an
`av_frame_copy_props` otherwise; `move` is the last arm, which sends the
original frame by ownership move.  `accepted` records whether the
destination was still connected. -/
inductive SendEvent
  | dup (dest : Nat) (payload : Nat) (shared : Bool) (accepted : Bool)
  | move (dest : Nat) (payload : Nat) (accepted : Bool)
deriving DecidableEq, Repr

/-- Payload delivered by an event. -/
def SendEvent.payloadOf : SendEvent → Nat
  | .dup _ payload _ _ => payload
  | .move _ payload _ => payload

/-- Whether the destination accepted the send. -/
def SendEvent.isAccepted : SendEvent → Bool
  | .dup _ _ _ accepted => accepted
  | .move _ _ accepted => accepted

/-- Whether the event is the duplicate-buffer path. -/
def SendEvent.isDup : SendEvent → Bool
  | .dup _ _ _ _ => true
  | .move _ _ _ => false

/-- The destination (sender position) of an event. -/
def SendEvent.destOf : SendEvent → Nat
  | .dup dest _ _ _ => dest
  | .move dest _ _ => dest

/-- Whether the event duplicated by incrementing the payload buffer's
reference count (`av_frame_ref`), as opposed to copying props only. -/
def SendEvent.isRefDup : SendEvent → Bool
  | .dup _ _ shared _ => shared
  | .move _ _ _ => false

/-- The `for (i, sender) in frame_senders.iter().enumerate()` loop of
`run_filter_frame`: every sender with `i < total - 1` gets a duplicate (made
before the send, so it happens even when the send then fails), the last
sender gets the original frame, and the loop breaks there.  Returns the send
events and the `finished_senders` index list (indices whose send failed, in
loop order).  Pool allocation and `av_frame_ref` are modelled as succeeding
(their failure is the fatal OOM path, orthogonal to these claims). -/
def sendLoop (total : Nat) (frame : AVFrame) :
    List FrameSenderEnd → Nat → List SendEvent × List Nat
  | [], _ => ([], [])
  | s :: rest, i =>
    if i < total - 1 then
      let step := sendLoop total frame rest (i + 1)
      (.dup i frame.payload frame.hasBuf s.connected :: step.1,
        if s.connected then step.2 else i :: step.2)
    else
      ([.move i frame.payload s.connected], if s.connected then [] else [i])

/-- The `for i in finished_senders { frame_senders.remove(i); }` loop.
`Vec::remove` panics when the index is out of range (`none`); each removal
shifts the elements behind it, exactly as in the source. -/
def removeFinished : List FrameSenderEnd → List Nat → Option (List FrameSenderEnd)
  | senders, [] => some senders
  | senders, i :: rest =>
    if i < senders.length then removeFinished (senders.eraseIdx i) rest else none

/-- The forwarding tail of `run_filter_frame` (after the chain walk produced
`frame`): early return when no senders are active, otherwise fan the frame
out and prune the finished senders.  Returns the observed send events and
the surviving sender list (`none` = panic inside `Vec::remove`). -/
def runFilterFrameSend (senders : List FrameSenderEnd) (frame : AVFrame) :
    List SendEvent × Option (List FrameSenderEnd) :=
  if senders.length = 0 then ([], some senders)
  else
    let step := sendLoop senders.length frame senders 0
    (step.1, removeFinished senders step.2)

/-! ## Stream registries and binding resolution -/

/-- A destination endpoint owned by a decoder stream: either one of the
original decoded-frame consumers or the channel into a spliced-in frame
pipeline. -/
inductive FrameDst
  | decoderOrig (uid : Nat)
  | pipelineSender
deriving DecidableEq, Repr

/-- `DecoderStream` (src/core/context/decoder_stream.rs), restricted to the
fields the scheduler core reads: identity, binding keys, the optional
inbound packet channel `src` (a channel id) and the outbound frame
destinations `dsts`. -/
structure DecoderStream where
  stream_index : Nat
  linklabel : Option String
  codec_type : AVMediaType
  fg_input_index : Nat
  src : Option Nat
  dsts : List FrameDst
deriving DecidableEq, Repr

/-- `DecoderStream::is_used`. -/
def DecoderStream.is_used (s : DecoderStream) : Bool :=
  s.src.isSome

/-- `EncoderStream`: its module is not under src/; fields and
`replace_src` follow their uses in frame_filter_pipeline.rs and spec §3
(an encoder stream owns one inbound decoded-data channel, identified here
by a channel id). -/
structure EncoderStream where
  stream_index : Nat
  linklabel : Option String
  codec_type : AVMediaType
  src : Nat
deriving DecidableEq, Repr

/-- `FramePipelineBuilder` (src/core/filter/frame_pipeline_builder.rs):
binding keys, media type, and the ordered filter list (name, uid, media
type of each user filter). -/
structure FramePipelineBuilder where
  stream_index : Option Nat
  linklabel : Option String
  media_type : AVMediaType
  filters : List (String × Nat × AVMediaType)
deriving DecidableEq, Repr

/-- The error kinds binding resolution can produce
(crate::error::Error variants). -/
inductive MatchError
  | frameFilterStreamTypeNoMatched (idx : Nat) (mt : AVMediaType)
  | frameFilterLinkLabelNoMatched (label : String)
  | frameFilterTypeNoMatched (mt : AVMediaType)
deriving DecidableEq, Repr

/-- `decoder_streams.iter_mut().find(pred)` followed by
`decoder_stream.replace_dsts(pipeline_frame_sender)`: locate the first
stream satisfying `pred`, replace its destination list with the single
fresh pipeline sender, and return the found stream (its pre-call snapshot,
whose `dsts` are the senders handed to the pipeline worker) together with
the updated registry. -/
def findReplaceBy {α : Type} (pred : α → Bool) (upd : α → α) :
    List α → Option (α × List α)
  | [] => none
  | s :: rest =>
    if pred s then some (s, upd s :: rest)
    else
      match findReplaceBy pred upd rest with
      | none => none
      | some found => some (found.1, s :: found.2)

def findReplaceDsts (pred : DecoderStream → Bool)
    (streams : List DecoderStream) : Option (DecoderStream × List DecoderStream) :=
  findReplaceBy pred (fun s => { s with dsts := [.pipelineSender] }) streams

/-- `encoder_streams.iter_mut().find(pred)` followed by
`encoder_stream.replace_src(pipeline_frame_receiver)`: the matched stream's
inbound channel is replaced by the fresh pipeline channel `fresh`, and the
old channel id (handed to the pipeline worker) is returned with the snapshot. -/
def findReplaceSrc (fresh : Nat) (pred : EncoderStream → Bool)
    (streams : List EncoderStream) : Option (EncoderStream × List EncoderStream) :=
  findReplaceBy pred (fun s => { s with src := fresh }) streams

/-- Result of `match_decoder_stream`: the resolved stream index and link
label, the decoder frame senders taken over from the stream, its
filtergraph input index, and the updated registry. -/
structure MatchedDecoder where
  stream_index : Nat
  linklabel : Option String
  decoder_frame_senders : List FrameDst
  fg_input_index : Nat
  streams : List DecoderStream
deriving DecidableEq, Repr

/-- `match_decoder_stream` (src/core/scheduler/frame_filter_pipeline.rs):
explicit stream index first, then explicit link label, then first stream of
the builder's media kind; each miss yields its own error kind. -/
def match_decoder_stream (b : FramePipelineBuilder) (streams : List DecoderStream) :
    Except MatchError MatchedDecoder :=
  match b.stream_index with
  | some idx =>
    match findReplaceDsts (fun s => s.stream_index = idx) streams with
    | none => .error (.frameFilterStreamTypeNoMatched idx b.media_type)
    | some found =>
      .ok ⟨idx, found.1.linklabel, found.1.dsts, found.1.fg_input_index, found.2⟩
  | none =>
    match b.linklabel with
    | none =>
      match findReplaceDsts (fun s => s.codec_type = b.media_type) streams with
      | none => .error (.frameFilterTypeNoMatched b.media_type)
      | some found =>
        .ok ⟨found.1.stream_index, found.1.linklabel, found.1.dsts,
          found.1.fg_input_index, found.2⟩
    | some label =>
      match findReplaceDsts (fun s => s.linklabel = some label) streams with
      | none => .error (.frameFilterLinkLabelNoMatched label)
      | some found =>
        .ok ⟨found.1.stream_index, some label, found.1.dsts,
          found.1.fg_input_index, found.2⟩

/-- Result of `match_encoder_stream`: resolved index and label, the encoder
frame receiver taken over from the stream, and the updated registry. -/
structure MatchedEncoder where
  stream_index : Nat
  linklabel : Option String
  encoder_frame_receiver : Nat
  streams : List EncoderStream
deriving DecidableEq, Repr

/-- `match_encoder_stream`, with `fresh` the id of the newly created bounded
pipeline channel installed by `replace_src`. -/
def match_encoder_stream (fresh : Nat) (b : FramePipelineBuilder)
    (streams : List EncoderStream) : Except MatchError MatchedEncoder :=
  match b.stream_index with
  | some idx =>
    match findReplaceSrc fresh (fun s => s.stream_index = idx) streams with
    | none => .error (.frameFilterStreamTypeNoMatched idx b.media_type)
    | some found => .ok ⟨idx, found.1.linklabel, found.1.src, found.2⟩
  | none =>
    match b.linklabel with
    | none =>
      match findReplaceSrc fresh (fun s => s.codec_type = b.media_type) streams with
      | none => .error (.frameFilterTypeNoMatched b.media_type)
      | some found => .ok ⟨found.1.stream_index, found.1.linklabel, found.1.src, found.2⟩
    | some label =>
      match findReplaceSrc fresh (fun s => s.linklabel = some label) streams with
      | none => .error (.frameFilterLinkLabelNoMatched label)
      | some found => .ok ⟨found.1.stream_index, some label, found.1.src, found.2⟩

/-- `input_pipeline_init`: empty filter list returns `Ok` at once; otherwise
binding resolution runs (mutating the registry) and a worker thread is
spawned (the `Bool`; spawn success is modelled, its failure being an OS
condition outside the embedding). -/
def input_pipeline_init (b : FramePipelineBuilder) (streams : List DecoderStream) :
    Except MatchError (List DecoderStream × Bool) :=
  if b.filters.isEmpty then .ok (streams, false)
  else
    match match_decoder_stream b streams with
    | .error e => .error e
    | .ok matched => .ok (matched.streams, true)

/-- `output_pipeline_init`, mirror of `input_pipeline_init` over the encoder
registry. -/
def output_pipeline_init (fresh : Nat) (b : FramePipelineBuilder)
    (streams : List EncoderStream) : Except MatchError (List EncoderStream × Bool) :=
  if b.filters.isEmpty then .ok (streams, false)
  else
    match match_encoder_stream fresh b streams with
    | .error e => .error e
    | .ok matched => .ok (matched.streams, true)

/-! ## Demuxer stream connection -/

/-- `Demuxer` (src/core/context/demuxer.rs), restricted to the stream table
and the packet destination list; `next_channel` supplies the fresh channel
ids that `crossbeam_channel::bounded(8)` creates. -/
structure Demuxer where
  streams : List DecoderStream
  dsts : List (Nat × Nat × Option Nat)
  next_channel : Nat
deriving DecidableEq, Repr

/-- `Demuxer::connect_stream`: a no-op when the stream is already in use,
otherwise create a bounded channel, record the sender as a packet
destination and install the receiver as the stream's inbound channel.
`none` models the index-out-of-range panic of `self.streams[index]`. -/
def Demuxer.connect_stream (d : Demuxer) (index : Nat) : Option Demuxer :=
  match d.streams.get? index with
  | none => none
  | some s =>
    if s.is_used then some d
    else
      some { streams := modifyAt d.streams index (fun t => { t with src := some d.next_channel }),
             dsts := d.dsts ++ [(d.next_channel, index, none)],
             next_channel := d.next_channel + 1 }

/-- Shared sample chain: an empty video pipeline for stream 0. -/
def pipe0 : FramePipeline :=
  FramePipeline.new 0 none AVMediaType.video

/-- The name/stage pairs of the chain, head to tail. -/
def chainStages (p : FramePipeline) : List (String × FrameFilter) :=
  (chainIdx p).filterMap (fun i => (p.nodes.get? i).map (fun c => (c.name, c.frame_filter)))

/-- A filter slot is compatible with chain media type `mt`: if it holds a
user stage, that stage's media kind is `mt`. -/
def FilterOk (mt : AVMediaType) (ff : FrameFilter) : Prop :=
  ∀ uid m, ff = .user uid m → m = mt

/-- Every filter slot in the arena is compatible with media type `mt`. -/
def NodesMediaOk (mt : AVMediaType) (nodes : List FrameFilterContext) : Prop :=
  ∀ ctx ∈ nodes, FilterOk mt ctx.frame_filter

/-! ## Helper lemmas -/

theorem modifyAt_get_self {α : Type} (l : List α) (i : Nat) (f : α → α) :
    (modifyAt l i f).get? i = (l.get? i).map f := by
  unfold modifyAt
  cases h : l.get? i with
  | none => simp [h, List.get?_eq_none.mp h]
  | some c =>
    simp only [h]
    rw [List.get?_set_eq, h]
    rfl

theorem modifyAt_length {α : Type} (l : List α) (i : Nat) (f : α → α) :
    (modifyAt l i f).length = l.length := by
  unfold modifyAt
  cases h : l.get? i <;> simp

theorem mem_modifyAt {α : Type} {l : List α} {i : Nat} {f : α → α} {a : α}
    (h : a ∈ modifyAt l i f) : a ∈ l ∨ ∃ b ∈ l, a = f b := by
  unfold modifyAt at h
  cases hg : l.get? i with
  | none => rw [hg] at h; exact Or.inl h
  | some c =>
    rw [hg] at h
    rcases List.mem_or_eq_of_mem_set h with hmem | heq
    · exact Or.inl hmem
    · exact Or.inr ⟨c, List.get?_mem hg, heq⟩

/-! ## C1 -/

/-- C1: for every insert/remove sequence leaving the chain non-empty, the
head→tail and tail→head traversals are claimed to be reverses of each other
with head/tail correct in every edge case.  The code violates this:
`remove` clears the node's `prev` before using it, so removing the tail of
`[a, b]` leaves `tail = None` (backward traversal empty), and removing the
middle of `[a, b, c]` clears `c`'s back-reference (backward traversal
`["c"]` instead of `["c", "a"]`). -/
theorem C1_remove_breaks_doubly_linked_invariant :
    (execOps pipe0 [.add_last "a" 1 .video, .add_last "b" 2 .video,
        .remove "b"]).map (fun p => (forwardNames p, backwardNames p, p.tail)) =
      some (["a"], [], none) ∧
    (execOps pipe0 [.add_last "a" 1 .video, .add_last "b" 2 .video,
        .add_last "c" 3 .video, .remove "b"]).map
        (fun p => (forwardNames p, backwardNames p)) =
      some (["a", "c"], ["c"]) ∧
    (["a"] : List String) ≠ ([] : List String).reverse ∧
    (["a", "c"] : List String) ≠ (["c"] : List String).reverse := by
  refine ⟨rfl, rfl, ?_, ?_⟩ <;> decide

/-! ## C2 -/

/-- C2: a disconnected destination is claimed to be removed from the active
set, with delivery continuing to the rest, in particular when two or more
destinations disconnect on the same unit.  The code removes `finished_senders`
by their original indices from the shrinking `Vec`: with destinations
`{0: closed, 1: closed, 2: open}` it ends up keeping closed destination 1 and
dropping open destination 2, and with `{0: closed, 1: closed}` the second
`Vec::remove(1)` hits a 1-element vector and panics. -/
theorem C2_finished_sender_removal_is_wrong :
    (runFilterFrameSend [⟨0, false⟩, ⟨1, false⟩, ⟨2, true⟩] ⟨5, true⟩).1 =
      [.dup 0 5 true false, .dup 1 5 true false, .move 2 5 true] ∧
    (runFilterFrameSend [⟨0, false⟩, ⟨1, false⟩, ⟨2, true⟩] ⟨5, true⟩).2 =
      some [⟨1, false⟩] ∧
    (runFilterFrameSend [⟨0, false⟩, ⟨1, false⟩] ⟨5, true⟩).2 = none := by
  exact ⟨rfl, rfl, rfl⟩

/-! ## C3 -/

/-- Shape of the event list produced by the fan-out loop, by induction on
the remaining senders: one event per sender, a duplicate for every position
before the last, a single ownership move at the last position, and every
event carrying the processed frame's payload. -/
theorem sendLoop_spec (frame : AVFrame) :
    ∀ (rest : List FrameSenderEnd) (i total : Nat),
      i + rest.length = total → rest ≠ [] →
      (sendLoop total frame rest i).1.length = rest.length ∧
      (sendLoop total frame rest i).1.countP (fun e => e.isDup) = rest.length - 1 ∧
      (sendLoop total frame rest i).1.countP (fun e => !e.isDup) = 1 ∧
      (∀ e ∈ (sendLoop total frame rest i).1,
        e.payloadOf = frame.payload ∧
        (e.isDup = true → e.isRefDup = frame.hasBuf) ∧
        (e.isDup = false ↔ e.destOf = total - 1)) := by
  intro rest
  induction rest with
  | nil => intro i total _ hne; exact absurd rfl hne
  | cons s rest ih =>
    intro i total hlen _
    cases rest with
    | nil =>
      simp only [List.length_cons, List.length_nil] at hlen
      have hi : ¬ i < total - 1 := by omega
      have hit : i = total - 1 := by omega
      refine ⟨?_, ?_, ?_, ?_⟩
      · simp [sendLoop, hi]
      · simp [sendLoop, hi, SendEvent.isDup]
      · simp [sendLoop, hi, SendEvent.isDup]
      · intro e he
        simp only [sendLoop, hi, if_false, List.mem_singleton] at he
        subst he
        refine ⟨rfl, ?_, ?_⟩
        · simp [SendEvent.isDup]
        · simp [SendEvent.isDup, SendEvent.destOf, hit]
    | cons s2 tl =>
      simp only [List.length_cons] at hlen
      have hi : i < total - 1 := by omega
      have hlen2 : i + 1 + (s2 :: tl).length = total := by
        simp only [List.length_cons]
        omega
      obtain ⟨ihl, ihd, ihm, ihall⟩ := ih (i + 1) total hlen2 (by simp)
      have hsl : sendLoop total frame (s :: s2 :: tl) i =
          (.dup i frame.payload frame.hasBuf s.connected ::
              (sendLoop total frame (s2 :: tl) (i + 1)).1,
            if s.connected then (sendLoop total frame (s2 :: tl) (i + 1)).2
            else i :: (sendLoop total frame (s2 :: tl) (i + 1)).2) := by
        simp [sendLoop, hi]
      have hdup : SendEvent.isDup
          (.dup i frame.payload frame.hasBuf s.connected) = true := rfl
      simp only [List.length_cons] at ihl ihd
      refine ⟨?_, ?_, ?_, ?_⟩
      · rw [hsl]
        simp only [List.length_cons, ihl]
      · rw [hsl]
        simp only [List.countP_cons, hdup, if_true, ihd, List.length_cons]
        omega
      · rw [hsl]
        simp only [List.countP_cons, hdup, ihm]
        simp
      · intro e he
        rw [hsl] at he
        simp only [List.mem_cons] at he
        rcases he with rfl | he
        · refine ⟨rfl, fun _ => rfl, ?_⟩
          simp only [SendEvent.isDup, SendEvent.destOf]
          constructor
          · intro h
            cases h
          · intro h
            omega
        · exact ihall e he

/-- C3: fanning a processed unit out to the N active destinations performs
exactly N−1 reference-incrementing duplicate operations (one per non-last
destination) and exactly 1 ownership move (the last destination), with no
duplicate at all for N=1, and every destination observes payload content
equal to the processed unit. -/
theorem C3_fanout_dups_and_move (senders : List FrameSenderEnd) (frame : AVFrame)
    (hne : senders ≠ []) (hbuf : frame.hasBuf = true) :
    (runFilterFrameSend senders frame).1.length = senders.length ∧
    (runFilterFrameSend senders frame).1.countP (fun e => e.isDup) =
      senders.length - 1 ∧
    (runFilterFrameSend senders frame).1.countP (fun e => !e.isDup) = 1 ∧
    (∀ e ∈ (runFilterFrameSend senders frame).1,
      e.payloadOf = frame.payload ∧
      (e.isDup = true → e.isRefDup = true) ∧
      (e.isDup = false ↔ e.destOf = senders.length - 1)) := by
  have hlz : ¬ senders.length = 0 := by
    simpa [List.length_eq_zero] using hne
  have hspec := sendLoop_spec frame senders 0 senders.length (by omega) hne
  have hrun : (runFilterFrameSend senders frame).1 =
      (sendLoop senders.length frame senders 0).1 := by
    simp [runFilterFrameSend, hlz]
  rw [hrun]
  refine ⟨hspec.1, hspec.2.1, hspec.2.2.1, ?_⟩
  intro e he
  obtain ⟨h1, h2, h3⟩ := hspec.2.2.2 e he
  exact ⟨h1, fun hd => (h2 hd).trans hbuf, h3⟩

/-- Witness for C3 at two connected destinations and payload 7. -/
theorem C3_fanout_dups_and_move_witness :
    (runFilterFrameSend [⟨0, true⟩, ⟨1, true⟩] ⟨7, true⟩).1.length = 2 ∧
    (runFilterFrameSend [⟨0, true⟩, ⟨1, true⟩] ⟨7, true⟩).1.countP
      (fun e => e.isDup) = 1 ∧
    (runFilterFrameSend [⟨0, true⟩, ⟨1, true⟩] ⟨7, true⟩).1.countP
      (fun e => !e.isDup) = 1 := by
  have h := C3_fanout_dups_and_move [⟨0, true⟩, ⟨1, true⟩] ⟨7, true⟩ (by simp) rfl
  exact ⟨h.1, h.2.1, h.2.2.1⟩

/-! ## C4 -/

theorem findReplaceBy_none_iff {α : Type} (pred : α → Bool) (upd : α → α)
    (l : List α) : findReplaceBy pred upd l = none ↔ l.find? pred = none := by
  induction l with
  | nil => simp [findReplaceBy]
  | cons s rest ih =>
    by_cases h : pred s
    · simp [findReplaceBy, h, List.find?_cons_of_pos _ h]
    · rw [List.find?_cons_of_neg _ h, ← ih]
      cases hf : findReplaceBy pred upd rest <;> simp [findReplaceBy, h, hf]

theorem findReplaceBy_fst {α : Type} (pred : α → Bool) (upd : α → α) :
    ∀ (l : List α) (pr : α × List α), findReplaceBy pred upd l = some pr →
      l.find? pred = some pr.1 := by
  intro l
  induction l with
  | nil => intro pr h; simp [findReplaceBy] at h
  | cons s rest ih =>
    intro pr h
    by_cases hp : pred s
    · simp only [findReplaceBy, hp, if_true] at h
      cases h
      simp [List.find?_cons_of_pos _ hp]
    · simp only [findReplaceBy, hp, if_false, Bool.false_eq_true] at h
      rw [List.find?_cons_of_neg _ hp]
      cases hf : findReplaceBy pred upd rest with
      | none => rw [hf] at h; cases h
      | some pr2 =>
        rw [hf] at h
        cases h
        exact ih pr2 hf

theorem findReplaceBy_of_find {α : Type} (pred : α → Bool) (upd : α → α)
    (l : List α) (s : α) (h : l.find? pred = some s) :
    ∃ pr, findReplaceBy pred upd l = some pr ∧ pr.1 = s := by
  cases hf : findReplaceBy pred upd l with
  | none =>
    rw [(findReplaceBy_none_iff pred upd l).mp hf] at h
    cases h
  | some pr =>
    have := findReplaceBy_fst pred upd l pr hf
    rw [this] at h
    cases h
    exact ⟨pr, rfl, rfl⟩

/-- C4: binding resolution tries an explicit stream index first (ignoring
any label), then an explicit link label, then the first stream of the
declared media kind, each miss yielding its own error kind — for both the
decoder (input) and the encoder (output) registries. -/
theorem C4_binding_resolution (ds : List DecoderStream) (es : List EncoderStream)
    (b : FramePipelineBuilder) (fresh : Nat) (i : Nat) (lbl : String) :
    (b.stream_index = some i →
      ((ds.find? (fun s => s.stream_index = i) = none →
          match_decoder_stream b ds =
            .error (.frameFilterStreamTypeNoMatched i b.media_type)) ∧
        (∀ s, ds.find? (fun s => s.stream_index = i) = some s →
          ∃ r, match_decoder_stream b ds = .ok r ∧ r.stream_index = i ∧
            r.linklabel = s.linklabel) ∧
        (es.find? (fun s => s.stream_index = i) = none →
          match_encoder_stream fresh b es =
            .error (.frameFilterStreamTypeNoMatched i b.media_type)) ∧
        (∀ s, es.find? (fun s => s.stream_index = i) = some s →
          ∃ r, match_encoder_stream fresh b es = .ok r ∧ r.stream_index = i ∧
            r.linklabel = s.linklabel))) ∧
    (b.stream_index = none → b.linklabel = some lbl →
      ((ds.find? (fun s => s.linklabel = some lbl) = none →
          match_decoder_stream b ds = .error (.frameFilterLinkLabelNoMatched lbl)) ∧
        (∀ s, ds.find? (fun s => s.linklabel = some lbl) = some s →
          ∃ r, match_decoder_stream b ds = .ok r ∧
            r.stream_index = s.stream_index ∧ r.linklabel = some lbl) ∧
        (es.find? (fun s => s.linklabel = some lbl) = none →
          match_encoder_stream fresh b es =
            .error (.frameFilterLinkLabelNoMatched lbl)) ∧
        (∀ s, es.find? (fun s => s.linklabel = some lbl) = some s →
          ∃ r, match_encoder_stream fresh b es = .ok r ∧
            r.stream_index = s.stream_index ∧ r.linklabel = some lbl))) ∧
    (b.stream_index = none → b.linklabel = none →
      ((ds.find? (fun s => s.codec_type = b.media_type) = none →
          match_decoder_stream b ds = .error (.frameFilterTypeNoMatched b.media_type)) ∧
        (∀ s, ds.find? (fun s => s.codec_type = b.media_type) = some s →
          ∃ r, match_decoder_stream b ds = .ok r ∧
            r.stream_index = s.stream_index ∧ r.linklabel = s.linklabel) ∧
        (es.find? (fun s => s.codec_type = b.media_type) = none →
          match_encoder_stream fresh b es =
            .error (.frameFilterTypeNoMatched b.media_type)) ∧
        (∀ s, es.find? (fun s => s.codec_type = b.media_type) = some s →
          ∃ r, match_encoder_stream fresh b es = .ok r ∧
            r.stream_index = s.stream_index ∧ r.linklabel = s.linklabel))) := by
  refine ⟨?_, ?_, ?_⟩
  · intro hsi
    refine ⟨?_, ?_, ?_, ?_⟩
    · intro hnone
      have hf : findReplaceDsts (fun s => s.stream_index = i) ds = none :=
        (findReplaceBy_none_iff _ _ ds).mpr hnone
      simp only [match_decoder_stream, hsi, hf]
    · intro s hfind
      obtain ⟨pr, hpr, hfst⟩ := findReplaceBy_of_find _
        (fun s => { s with dsts := [.pipelineSender] }) ds s hfind
      have hok : match_decoder_stream b ds =
          .ok ⟨i, pr.1.linklabel, pr.1.dsts, pr.1.fg_input_index, pr.2⟩ := by
        simp only [match_decoder_stream, hsi, findReplaceDsts, hpr]
      exact ⟨_, hok, rfl, by rw [hfst]⟩
    · intro hnone
      have hf : findReplaceSrc fresh (fun s => s.stream_index = i) es = none :=
        (findReplaceBy_none_iff _ _ es).mpr hnone
      simp only [match_encoder_stream, hsi, hf]
    · intro s hfind
      obtain ⟨pr, hpr, hfst⟩ := findReplaceBy_of_find _
        (fun s => { s with src := fresh }) es s hfind
      have hok : match_encoder_stream fresh b es =
          .ok ⟨i, pr.1.linklabel, pr.1.src, pr.2⟩ := by
        simp only [match_encoder_stream, hsi, findReplaceSrc, hpr]
      exact ⟨_, hok, rfl, by rw [hfst]⟩
  · intro hsi hlbl
    refine ⟨?_, ?_, ?_, ?_⟩
    · intro hnone
      have hf : findReplaceDsts (fun s => s.linklabel = some lbl) ds = none :=
        (findReplaceBy_none_iff _ _ ds).mpr hnone
      simp only [match_decoder_stream, hsi, hlbl, hf]
    · intro s hfind
      obtain ⟨pr, hpr, hfst⟩ := findReplaceBy_of_find _
        (fun s => { s with dsts := [.pipelineSender] }) ds s hfind
      have hok : match_decoder_stream b ds =
          .ok ⟨pr.1.stream_index, some lbl, pr.1.dsts, pr.1.fg_input_index, pr.2⟩ := by
        simp only [match_decoder_stream, hsi, hlbl, findReplaceDsts, hpr]
      exact ⟨_, hok, by rw [hfst], rfl⟩
    · intro hnone
      have hf : findReplaceSrc fresh (fun s => s.linklabel = some lbl) es = none :=
        (findReplaceBy_none_iff _ _ es).mpr hnone
      simp only [match_encoder_stream, hsi, hlbl, hf]
    · intro s hfind
      obtain ⟨pr, hpr, hfst⟩ := findReplaceBy_of_find _
        (fun s => { s with src := fresh }) es s hfind
      have hok : match_encoder_stream fresh b es =
          .ok ⟨pr.1.stream_index, some lbl, pr.1.src, pr.2⟩ := by
        simp only [match_encoder_stream, hsi, hlbl, findReplaceSrc, hpr]
      exact ⟨_, hok, by rw [hfst], rfl⟩
  · intro hsi hlbl
    refine ⟨?_, ?_, ?_, ?_⟩
    · intro hnone
      have hf : findReplaceDsts (fun s => s.codec_type = b.media_type) ds = none :=
        (findReplaceBy_none_iff _ _ ds).mpr hnone
      simp only [match_decoder_stream, hsi, hlbl, hf]
    · intro s hfind
      obtain ⟨pr, hpr, hfst⟩ := findReplaceBy_of_find _
        (fun s => { s with dsts := [.pipelineSender] }) ds s hfind
      have hok : match_decoder_stream b ds =
          .ok ⟨pr.1.stream_index, pr.1.linklabel, pr.1.dsts,
            pr.1.fg_input_index, pr.2⟩ := by
        simp only [match_decoder_stream, hsi, hlbl, findReplaceDsts, hpr]
      exact ⟨_, hok, by rw [hfst], by rw [hfst]⟩
    · intro hnone
      have hf : findReplaceSrc fresh (fun s => s.codec_type = b.media_type) es = none :=
        (findReplaceBy_none_iff _ _ es).mpr hnone
      simp only [match_encoder_stream, hsi, hlbl, hf]
    · intro s hfind
      obtain ⟨pr, hpr, hfst⟩ := findReplaceBy_of_find _
        (fun s => { s with src := fresh }) es s hfind
      have hok : match_encoder_stream fresh b es =
          .ok ⟨pr.1.stream_index, pr.1.linklabel, pr.1.src, pr.2⟩ := by
        simp only [match_encoder_stream, hsi, hlbl, findReplaceSrc, hpr]
      exact ⟨_, hok, by rw [hfst], by rw [hfst]⟩

/-- Witness for C4 on the spec's example registry: stream 0 is video,
stream 1 is audio with label "1:a"; an explicit index 1 binds to stream 1. -/
theorem C4_binding_resolution_witness :
    ∃ r, match_decoder_stream ⟨some 1, none, .audio, [("f", 1, .audio)]⟩
        [⟨0, none, .video, 0, none, [.decoderOrig 10]⟩,
          ⟨1, some "1:a", .audio, 0, none, [.decoderOrig 11]⟩] = .ok r ∧
      r.stream_index = 1 ∧ r.linklabel = some "1:a" :=
  ((C4_binding_resolution
      [⟨0, none, .video, 0, none, [.decoderOrig 10]⟩,
        ⟨1, some "1:a", .audio, 0, none, [.decoderOrig 11]⟩]
      [] ⟨some 1, none, .audio, [("f", 1, .audio)]⟩ 0 1 "x").1 rfl).2.1
    ⟨1, some "1:a", .audio, 0, none, [.decoderOrig 11]⟩ (by decide)

/-! ## C5 -/

/-- C5: removing the sole node of a chain yields an empty chain (head and
tail both `none`), returns the removed stage, and leaves a no-op filter in
the removed node's stage slot. -/
theorem C5_remove_sole_node (p : FramePipeline) (i : Nat)
    (ctx : FrameFilterContext) (n : String)
    (hh : p.head = some i) (ht : p.tail = some i)
    (hget : p.nodes.get? i = some ctx) (hname : ctx.name = n)
    (hprev : ctx.prev = none) (hnext : ctx.next = none) :
    ∃ q, p.remove n = (some ctx.frame_filter, q) ∧
      q.head = none ∧ q.tail = none ∧
      q.nodes.get? i =
        some { ctx with frame_filter := .noop, prev := none, next := none } := by
  have hlt : i < p.nodes.length := by
    rcases List.get?_eq_some.mp hget with ⟨hl, _⟩
    exact hl
  obtain ⟨k, hk⟩ : ∃ k, p.nodes.length = k + 1 := ⟨p.nodes.length - 1, by omega⟩
  have hfind : p.findIdx n = some i := by
    rw [FramePipeline.findIdx, hk, hh, FramePipeline.findIdxFrom, hget]
    simp [hname]
  have hres : p.remove n = (some ctx.frame_filter,
      { p with
        nodes := modifyAt p.nodes i
          (fun c => { c with frame_filter := .noop, prev := none, next := none }),
        head := none, tail := none }) := by
    simp only [FramePipeline.remove, hfind, hget, hprev, hnext]
  refine ⟨_, hres, rfl, rfl, ?_⟩
  rw [modifyAt_get_self, hget]
  rfl

/-- Witness for C5 on a one-node chain holding filter 1. -/
theorem C5_remove_sole_node_witness :
    ∃ q, (FramePipeline.mk 0 none .video [⟨"f", .user 1 .video, none, none⟩]
        (some 0) (some 0)).remove "f" = (some (FrameFilter.user 1 .video), q) ∧
      q.head = none ∧ q.tail = none ∧
      q.nodes.get? 0 = some ⟨"f", .noop, none, none⟩ :=
  C5_remove_sole_node
    (FramePipeline.mk 0 none .video [⟨"f", .user 1 .video, none, none⟩]
      (some 0) (some 0))
    0 ⟨"f", .user 1 .video, none, none⟩ "f" rfl rfl rfl rfl rfl rfl

/-! ## C6 -/

/-- C6 as stated is false: no chain operation checks names, so inserting an
existing name yields a chain with two nodes of that name. -/
theorem C6_duplicate_names_reachable :
    (execOps pipe0 [.add_last "a" 1 .video, .add_last "a" 2 .video]).map
        forwardNames = some ["a", "a"] ∧
    ¬ (["a", "a"] : List String).Nodup := by
  exact ⟨rfl, by decide⟩

/-- C6 amended: the chain operations do not enforce name uniqueness —
inserting a name already present produces a chain with two nodes of that
name — and the name-based operations act on the first node with the given
name in head-to-tail order (`remove` removes only the first match). -/
theorem C6_names_not_unique_first_match :
    (execOps pipe0 [.add_last "a" 1 .video, .add_last "a" 2 .video]).map
        chainStages = some [("a", .user 1 .video), ("a", .user 2 .video)] ∧
    (execOps pipe0 [.add_last "a" 1 .video, .add_last "a" 2 .video,
        .remove "a"]).map chainStages = some [("a", .user 2 .video)] := by
  exact ⟨rfl, rfl⟩

/-! ## C8 -/

/-- C8: a stream is in use exactly when its inbound channel is populated,
and `connect_stream` is idempotent: on an already-used stream it changes
neither the stream's inbound channel nor the demuxer's destination list, so
connecting twice equals connecting once. -/
theorem C8_connect_stream_idempotent (d : Demuxer) (i : Nat) (s : DecoderStream)
    (hget : d.streams.get? i = some s) :
    (s.is_used ↔ s.src.isSome) ∧
    (s.is_used → d.connect_stream i = some d) ∧
    (∀ e, d.connect_stream i = some e → ∃ t, e.streams.get? i = some t ∧ t.is_used) ∧
    (d.connect_stream i).bind (fun e => e.connect_stream i) = d.connect_stream i := by
  by_cases hused : s.is_used
  · have h1 : d.connect_stream i = some d := by
      simp only [Demuxer.connect_stream, hget, hused, if_true]
    refine ⟨Iff.rfl, fun _ => h1, ?_, ?_⟩
    · intro e he
      rw [h1] at he
      cases he
      exact ⟨s, hget, hused⟩
    · rw [h1]
      simp [h1]
  · have hfalse : s.is_used = false := by
      simpa using hused
    have h1 : d.connect_stream i = some
        { streams := modifyAt d.streams i (fun t => { t with src := some d.next_channel }),
          dsts := d.dsts ++ [(d.next_channel, i, none)],
          next_channel := d.next_channel + 1 } := by
      simp only [Demuxer.connect_stream, hget, hfalse, Bool.false_eq_true, if_false]
    have hget2 : (modifyAt d.streams i (fun t => { t with src := some d.next_channel })).get? i
        = some { s with src := some d.next_channel } := by
      rw [modifyAt_get_self, hget]
      rfl
    refine ⟨Iff.rfl, fun hu => absurd hu hused, ?_, ?_⟩
    · intro e he
      rw [h1] at he
      cases he
      exact ⟨{ s with src := some d.next_channel }, hget2, rfl⟩
    · rw [h1]
      have h2 : Demuxer.connect_stream
          { streams := modifyAt d.streams i (fun t => { t with src := some d.next_channel }),
            dsts := d.dsts ++ [(d.next_channel, i, none)],
            next_channel := d.next_channel + 1 } i = some
          { streams := modifyAt d.streams i (fun t => { t with src := some d.next_channel }),
            dsts := d.dsts ++ [(d.next_channel, i, none)],
            next_channel := d.next_channel + 1 } := by
        simp only [Demuxer.connect_stream, hget2, DecoderStream.is_used, Option.isSome_some,
          if_true]
      simp [h2]

/-- Witness for C8 at a concrete demuxer with one unused stream. -/
theorem C8_connect_stream_idempotent_witness :
    let s : DecoderStream := ⟨0, none, .video, 0, none, []⟩
    let d : Demuxer := ⟨[s], [], 100⟩
    (d.connect_stream 0).bind (fun e => e.connect_stream 0) = d.connect_stream 0 :=
  (C8_connect_stream_idempotent ⟨[⟨0, none, .video, 0, none, []⟩], [], 100⟩ 0
    ⟨0, none, .video, 0, none, []⟩ rfl).2.2.2

/-! ## C9 -/

/-- C9: `add_first`/`add_last` on an empty chain produce a chain whose head
and tail both point at the single newly inserted node, carrying the supplied
name and stage. -/
theorem C9_add_to_empty_chain (p : FramePipeline) (name : String) (uid : Nat)
    (fmt : AVMediaType) (hh : p.head = none) (ht : p.tail = none)
    (hmt : fmt = p.media_type) :
    (∃ q, p.add_first name uid fmt = some q ∧
      q.head = some p.nodes.length ∧ q.tail = some p.nodes.length ∧
      q.nodes.get? p.nodes.length = some ⟨name, .user uid fmt, none, none⟩) ∧
    (∃ q, p.add_last name uid fmt = some q ∧
      q.head = some p.nodes.length ∧ q.tail = some p.nodes.length ∧
      q.nodes.get? p.nodes.length = some ⟨name, .user uid fmt, none, none⟩) := by
  have h1 : p.add_first name uid fmt = some
      { p with
        nodes := p.nodes ++ [⟨name, .user uid fmt, none, none⟩],
        head := some p.nodes.length,
        tail := some p.nodes.length } := by
    simp only [FramePipeline.add_first, if_pos hmt, hh, ht, eq_self_iff_true, if_true]
  have h2 : p.add_last name uid fmt = some
      { p with
        nodes := p.nodes ++ [⟨name, .user uid fmt, none, none⟩],
        head := some p.nodes.length,
        tail := some p.nodes.length } := by
    simp only [FramePipeline.add_last, if_pos hmt, hh, ht, eq_self_iff_true, if_true]
  exact ⟨⟨_, h1, rfl, rfl, List.get?_concat_length _ _⟩,
    ⟨_, h2, rfl, rfl, List.get?_concat_length _ _⟩⟩

/-- Witness for C9 on the empty video chain. -/
theorem C9_add_to_empty_chain_witness :
    ∃ q, pipe0.add_first "f" 1 .video = some q ∧
      q.head = some 0 ∧ q.tail = some 0 ∧
      q.nodes.get? 0 = some ⟨"f", .user 1 .video, none, none⟩ :=
  (C9_add_to_empty_chain pipe0 "f" 1 .video rfl rfl rfl).1

/-! ## C10 -/

/-- C10: with an empty filter list, `input_pipeline_init` and
`output_pipeline_init` return `Ok` immediately, spawn no worker, and leave
the stream registries untouched. -/
theorem C10_empty_filters_is_noop (b : FramePipelineBuilder)
    (ds : List DecoderStream) (es : List EncoderStream) (fresh : Nat)
    (h : b.filters = []) :
    input_pipeline_init b ds = .ok (ds, false) ∧
    output_pipeline_init fresh b es = .ok (es, false) := by
  rw [input_pipeline_init, output_pipeline_init]
  simp [h]

/-- Witness for C10 at a concrete builder and registries. -/
theorem C10_empty_filters_is_noop_witness :
    input_pipeline_init ⟨none, none, .video, []⟩ [⟨0, none, .video, 0, none, []⟩] =
      .ok ([⟨0, none, .video, 0, none, []⟩], false) ∧
    output_pipeline_init 7 ⟨none, none, .video, []⟩ [⟨0, none, .video, 3⟩] =
      .ok ([⟨0, none, .video, 3⟩], false) :=
  C10_empty_filters_is_noop ⟨none, none, .video, []⟩ _ _ 7 rfl

/-! ## C7 -/

theorem filterOk_user (mt : AVMediaType) (uid : Nat) : FilterOk mt (.user uid mt) := by
  intro uid2 m h
  cases h
  rfl

theorem filterOk_noop (mt : AVMediaType) : FilterOk mt .noop := by
  intro uid m h
  cases h

theorem nodesMediaOk_nil (mt : AVMediaType) : NodesMediaOk mt [] := by
  intro ctx h
  cases h

theorem nodesMediaOk_append {mt : AVMediaType} {nodes : List FrameFilterContext}
    {ctx : FrameFilterContext} (h : NodesMediaOk mt nodes)
    (hc : FilterOk mt ctx.frame_filter) : NodesMediaOk mt (nodes ++ [ctx]) := by
  intro c hmem
  rcases List.mem_append.mp hmem with h1 | h1
  · exact h c h1
  · rw [List.mem_singleton.mp h1]
    exact hc

theorem nodesMediaOk_modifyAt {mt : AVMediaType} {nodes : List FrameFilterContext}
    {i : Nat} {f : FrameFilterContext → FrameFilterContext}
    (hf : ∀ c, FilterOk mt c.frame_filter → FilterOk mt (f c).frame_filter)
    (h : NodesMediaOk mt nodes) : NodesMediaOk mt (modifyAt nodes i f) := by
  intro c hmem
  rcases mem_modifyAt hmem with h1 | ⟨b, hb, rfl⟩
  · exact h c h1
  · exact hf b (h b hb)

theorem applyOp_nodesMediaOk {p q : FramePipeline} {op : ChainOp}
    (h : applyOp p op = some q) (hp : NodesMediaOk p.media_type p.nodes) :
    q.media_type = p.media_type ∧ NodesMediaOk p.media_type q.nodes := by
  cases op with
  | add_first name uid fmt =>
    simp only [applyOp, FramePipeline.add_first] at h
    split at h
    case isTrue hmt =>
      cases hmt
      split at h
      all_goals
        cases h
        exact ⟨rfl, by
          first
          | exact nodesMediaOk_modifyAt (fun c hc => hc)
              (nodesMediaOk_append hp (filterOk_user _ uid))
          | exact nodesMediaOk_append hp (filterOk_user _ uid)⟩
    case isFalse => cases h
  | add_last name uid fmt =>
    simp only [applyOp, FramePipeline.add_last] at h
    split at h
    case isTrue hmt =>
      cases hmt
      split at h
      all_goals
        cases h
        exact ⟨rfl, by
          first
          | exact nodesMediaOk_modifyAt (fun c hc => hc)
              (nodesMediaOk_append hp (filterOk_user _ uid))
          | exact nodesMediaOk_append hp (filterOk_user _ uid)⟩
    case isFalse => cases h
  | add_before base name uid fmt =>
    simp only [applyOp, FramePipeline.add_before] at h
    split at h
    case isTrue hmt =>
      cases hmt
      split at h
      · simp only [Option.map_some'] at h
        cases h
        exact ⟨rfl, hp⟩
      · split at h
        · simp only [Option.map_some'] at h
          cases h
          exact ⟨rfl, hp⟩
        · split at h
          all_goals
            simp only [Option.map_some'] at h
            cases h
            exact ⟨rfl, by
              first
              | exact nodesMediaOk_modifyAt (fun c hc => hc)
                  (nodesMediaOk_modifyAt (fun c hc => hc)
                    (nodesMediaOk_append hp (filterOk_user _ uid)))
              | exact nodesMediaOk_modifyAt (fun c hc => hc)
                  (nodesMediaOk_append hp (filterOk_user _ uid))⟩
    case isFalse => cases h
  | add_after base name uid fmt =>
    simp only [applyOp, FramePipeline.add_after] at h
    split at h
    case isTrue hmt =>
      cases hmt
      split at h
      · simp only [Option.map_some'] at h
        cases h
        exact ⟨rfl, hp⟩
      · split at h
        · simp only [Option.map_some'] at h
          cases h
          exact ⟨rfl, hp⟩
        · split at h
          all_goals
            simp only [Option.map_some'] at h
            cases h
            exact ⟨rfl, by
              first
              | exact nodesMediaOk_modifyAt (fun c hc => hc)
                  (nodesMediaOk_modifyAt (fun c hc => hc)
                    (nodesMediaOk_append hp (filterOk_user _ uid)))
              | exact nodesMediaOk_modifyAt (fun c hc => hc)
                  (nodesMediaOk_append hp (filterOk_user _ uid))⟩
    case isFalse => cases h
  | remove name =>
    simp only [applyOp, FramePipeline.remove] at h
    split at h
    · cases h
      exact ⟨rfl, hp⟩
    · split at h
      · cases h
        exact ⟨rfl, hp⟩
      · split at h
        all_goals split at h
        all_goals
          cases h
          refine ⟨rfl, nodesMediaOk_modifyAt (fun c _ => filterOk_noop _) ?_⟩
          first
          | exact nodesMediaOk_modifyAt (fun c hc => hc)
              (nodesMediaOk_modifyAt (fun c hc => hc) hp)
          | exact nodesMediaOk_modifyAt (fun c hc => hc) hp
          | exact hp
  | replace old_name new_name uid fmt =>
    simp only [applyOp, FramePipeline.replace] at h
    split at h
    case isTrue hmt =>
      cases hmt
      split at h
      · simp only [Option.map_some'] at h
        cases h
        exact ⟨rfl, hp⟩
      · split at h
        · simp only [Option.map_some'] at h
          cases h
          exact ⟨rfl, hp⟩
        · simp only [Option.map_some'] at h
          cases h
          exact ⟨rfl, nodesMediaOk_modifyAt (fun c _ => filterOk_user _ uid) hp⟩
    case isFalse => cases h


theorem execOps_nodesMediaOk :
    ∀ (ops : List ChainOp) (p q : FramePipeline), execOps p ops = some q →
      NodesMediaOk p.media_type p.nodes →
      q.media_type = p.media_type ∧ NodesMediaOk p.media_type q.nodes := by
  intro ops
  induction ops with
  | nil =>
    intro p q h hp
    cases h
    exact ⟨rfl, hp⟩
  | cons op rest ih =>
    intro p q h hp
    simp only [execOps] at h
    cases ha : applyOp p op with
    | none => rw [ha] at h; cases h
    | some r =>
      rw [ha] at h
      obtain ⟨hmt1, hok1⟩ := applyOp_nodesMediaOk ha hp
      obtain ⟨hmt2, hok2⟩ := ih r q h (by rw [hmt1]; exact hok1)
      exact ⟨hmt2.trans hmt1, by rw [← hmt1]; exact hok2⟩

/-- C7: every stage-introducing chain operation panics when the new stage
declares a different media kind than the chain, and consequently every
stage reachable in the chain of any state built by a sequence of operations
from a fresh pipeline carries the chain media kind. -/
theorem C7_media_kind_enforced (si : Nat) (lbl : Option String) (mt : AVMediaType)
    (ops : List ChainOp) (p : FramePipeline)
    (hexec : execOps (FramePipeline.new si lbl mt) ops = some p) :
    (∀ (q : FramePipeline) (op : ChainOp) (m : AVMediaType),
      op.stageMediaType = some m → m ≠ q.media_type → applyOp q op = none) ∧
    (∀ i ∈ chainIdx p, ∀ ctx, p.nodes.get? i = some ctx →
      ∀ uid m, ctx.frame_filter = .user uid m → m = p.media_type) := by
  constructor
  · intro q op m hop hne
    cases op with
    | add_first name uid fmt =>
      cases hop
      simp only [applyOp, FramePipeline.add_first, if_neg hne]
    | add_last name uid fmt =>
      cases hop
      simp only [applyOp, FramePipeline.add_last, if_neg hne]
    | add_before base name uid fmt =>
      cases hop
      simp only [applyOp, FramePipeline.add_before, if_neg hne, Option.map_none']
    | add_after base name uid fmt =>
      cases hop
      simp only [applyOp, FramePipeline.add_after, if_neg hne, Option.map_none']
    | remove name => cases hop
    | replace old_name new_name uid fmt =>
      cases hop
      simp only [applyOp, FramePipeline.replace, if_neg hne, Option.map_none']
  · have hinv := execOps_nodesMediaOk ops (FramePipeline.new si lbl mt) p hexec
      (nodesMediaOk_nil mt)
    intro i _ ctx hget uid m hff
    have hmem : ctx ∈ p.nodes := List.get?_mem hget
    have := hinv.2 ctx hmem uid m hff
    rw [this, hinv.1]

/-- Witness for C7: a video chain built by one insertion rejects an audio
stage. -/
theorem C7_media_kind_enforced_witness :
    applyOp pipe0 (.add_last "y" 2 .audio) = none := by
  have h := C7_media_kind_enforced 0 none .video [.add_last "x" 1 .video]
    (FramePipeline.mk 0 none .video [⟨"x", .user 1 .video, none, none⟩]
      (some 0) (some 0)) (by rfl)
  have hne : AVMediaType.audio ≠ pipe0.media_type := by decide
  exact h.1 pipe0 (.add_last "y" 2 .audio) .audio rfl hne

end EzFfmpeg
